import Mathlib

set_option maxRecDepth 8000

/-!
Verification of the BB84 QKD simulation engine.

Shallow embedding of the protocol-simulation core of the repository:
`src/bb84_simulator.py` (class `BB84SimulationEngine`, namespace `BB84` below)
and `src/lab_simulator.py` (class `BB84LabSimulator`, namespace `Lab` below).

Modelling conventions:
* Python bit/basis strings are `List Char` (the source manipulates strings
  character by character); method and variant names are `String`.
* Python floats are modelled as exact rationals `ℚ`; the one transcendental
  expression (the channel loss probability `10 ** (-db/10)`) is embedded over
  `ℝ` separately, and the per-bit channel loop is parametric in the loss
  probability value.
* Calls to `random.random()` / `random.choice` / `random.randint` /
  `random.uniform` are modelled by explicit draw oracles (`ℕ → ℚ` unit-interval
  draws consumed in call order, or `ℕ → Bool` for binary choices), so every
  function is a deterministic function of its inputs and draws.
* A Python function that can fall off the end (returning `None`) returns an
  `Option`; a raised exception is an `Except.error` carrying a `PyError`.
-/

namespace BB84

/-- Python `int(bit)` on a bit character, as used by the engine
(`'1' ↦ 1`, `'0' ↦ 0`; the engine only applies it to `'0'`/`'1'`). -/
def charToBit (c : Char) : ℕ := if c = '1' then 1 else 0

/-- Python `str(b)` on a bit value 0/1. -/
def bitToChar (b : ℕ) : Char := if b = 1 then '1' else '0'

/-- The bit flip `str(1 - int(bit))` from `apply_channel_effects`
(src/bb84_simulator.py line 373). -/
def flipChar (c : Char) : Char := bitToChar (1 - charToBit c)

/-- Python `sum(1 for a, b in zip(alice_key, bob_key) if a != b)`:
the number of mismatching positions of the zipped keys
(src/bb84_simulator.py lines 626 and 638). -/
def countMismatches (alice_key bob_key : List Char) : ℕ :=
  ((alice_key.zip bob_key).filter (fun p => p.1 ≠ p.2)).length

/-- Number of indices `i < alice_key.length` at which the two keys differ;
used to relate the zip-based count of the source to the positional count the
spec speaks about (they agree on equal-length keys). -/
def mismatchIndexCount (alice_key bob_key : List Char) : ℕ :=
  ((List.range alice_key.length).filter
    (fun i => alice_key.getD i ' ' ≠ bob_key.getD i ' ')).length

/-- Embedding of `BB84SimulationEngine.sift_keys`
(src/bb84_simulator.py lines 609-619): iterate over the zip of the four
strings and keep a position iff the bases agree and Bob's bit is not the
undetected sentinel `'?'`. -/
def sift_keys : List Char → List Char → List Char → List Char → List Char × List Char
  | aBit :: aBits, aBase :: aBases, bBit :: bBits, bBase :: bBases =>
    let rest := sift_keys aBits aBases bBits bBases
    if aBase = bBase ∧ bBit ≠ '?' then (aBit :: rest.1, bBit :: rest.2) else rest
  | _, _, _, _ => ([], [])

/-- Embedding of `BB84SimulationEngine.calculate_qber`
(src/bb84_simulator.py lines 621-627): `1.0` when either sifted key is empty,
otherwise mismatches over Alice's length. -/
def calculate_qber (alice_key bob_key : List Char) : ℚ :=
  if alice_key.length = 0 ∨ bob_key.length = 0 then 1
  else (countMismatches alice_key bob_key : ℚ) / (alice_key.length : ℚ)

/-- Embedding of `BB84SimulationEngine.error_correction_cascade`
(src/bb84_simulator.py lines 629-663). The source's final `else` branch
recurses with `method := 'cascade'`, which evaluates to the cascade branch
value; the recursion is unfolded here. The log side effects inside the source
function do not affect the returned triple and are omitted. -/
def error_correction_cascade (alice_key bob_key : List Char) (method : String) :
    List Char × List Char × ℕ :=
  if method = "none" then (alice_key, bob_key, 0)
  else
    let initial_errors := countMismatches alice_key bob_key
    if method = "cascade" then (alice_key, alice_key, initial_errors)
    else if method = "winnow" then (alice_key, alice_key, initial_errors)
    else if method = "ldpc" then (alice_key, alice_key, initial_errors)
    else (alice_key, alice_key, initial_errors)

/-- The pairwise-XOR compression loop of the `'universal'` branch of
`privacy_amplification` (src/bb84_simulator.py lines 683-688):
`out[i] = str(int(key[2i]) ^ int(key[2i+1]))`, a trailing odd character is
copied through unchanged. -/
def xorPairs : List Char → List Char
  | a :: b :: rest => bitToChar (charToBit a ^^^ charToBit b) :: xorPairs rest
  | [a] => [a]
  | [] => []

/-- Embedding of `BB84SimulationEngine.privacy_amplification`
(src/bb84_simulator.py lines 665-691). Python `max(1, int(len(key) * f))`
is `max 1 (Int.toNat ⌊len * f⌋)`: for a nonnegative product `int` truncation
is the floor, and for a negative product both sides are 1. A method outside
`none`/`standard`/`universal` falls off the end of the Python function, which
returns `None`; hence the `Option` result. The empty key is returned as the
empty string before the method dispatch. Log side effects are omitted. -/
def privacy_amplification (key : List Char) (method : String)
    (amplification_factor : ℚ) : Option (List Char) :=
  if key.length = 0 then some []
  else if method = "none" then some key
  else if method = "standard" then
    let new_length := max 1 (Int.toNat ⌊(key.length : ℚ) * amplification_factor⌋)
    some (key.take new_length)
  else if method = "universal" then
    let new_length := max 1 (Int.toNat ⌊(key.length : ℚ) * (6 / 10)⌋)
    some ((xorPairs key).take new_length)
  else none

/-- The protocol-variant QBER adjustment applied inline in
`run_manual_simulation` (src/bb84_simulator.py lines 860-880): decoy ×0.98,
SARG04 ×1.1 capped via `min(·, 0.5)`, six-state ×0.95, custom ×1.0, and any
other variant (standard `bb84`) unchanged. -/
def adjust_qber_variant (protocol_variant : String) (qber : ℚ) : ℚ :=
  if protocol_variant = "decoy" then qber * (98 / 100)
  else if protocol_variant = "sarg04" then min (qber * (11 / 10)) (1 / 2)
  else if protocol_variant = "six-state" then qber * (95 / 100)
  else if protocol_variant = "custom" then qber * 1
  else qber

/-- The engine's security threshold, `self.qber_threshold = 0.085`
(src/bb84_simulator.py line 39). -/
def qber_threshold : ℚ := 85 / 1000

/-- The loss probability computed by `apply_channel_effects`
(src/bb84_simulator.py lines 359-362): `fiber_loss_db = 0.184 * distance / 1000`
(distance in meters), `atmospheric_loss = noise * 0.5`,
`loss_probability = min(1 - 10 ** (-total_loss_db / 10), 0.85)`. -/
noncomputable def loss_probability_formula (distance noise : ℝ) : ℝ :=
  let fiber_loss_db := 0.184 * distance / 1000
  let atmospheric_loss := noise * 0.5
  let total_loss_db := fiber_loss_db + atmospheric_loss
  min (1 - (10 : ℝ) ^ (-total_loss_db / 10)) 0.85

/-- The per-bit loop of `apply_channel_effects`
(src/bb84_simulator.py lines 364-378), parametric in the already-computed
loss probability. `draws k` is the value of the `k`-th `random.random()`
call; when a photon is lost the flip draw of that bit is never consumed,
exactly as in the source. Returns the received characters, the number of
flips counted as channel errors, and the index of the next unconsumed draw. -/
def channelLoop (loss_probability noise : ℚ) (draws : ℕ → ℚ) :
    List Char → ℕ → List Char × ℕ × ℕ
  | [], k => ([], 0, k)
  | bit :: bits, k =>
    if draws k < loss_probability then
      let rest := channelLoop loss_probability noise draws bits (k + 1)
      ('?' :: rest.1, rest.2.1, rest.2.2)
    else if draws (k + 1) < noise then
      let rest := channelLoop loss_probability noise draws bits (k + 2)
      (flipChar bit :: rest.1, rest.2.1 + 1, rest.2.2)
    else
      let rest := channelLoop loss_probability noise draws bits (k + 2)
      (bit :: rest.1, rest.2.1, rest.2.2)

/-- Embedding of `BB84SimulationEngine.apply_channel_effects`
(src/bb84_simulator.py lines 355-380), with the loss probability passed in as
a value (the source computes it by `loss_probability_formula`, a float
expression; every claim below is parametric in that value). Returns the
received string and the realized channel error rate
`errors / len(bits) if len(bits) > 0 else 0`. -/
def apply_channel_effects (bits : List Char) (loss_probability noise : ℚ)
    (draws : ℕ → ℚ) : List Char × ℚ :=
  let out := channelLoop loss_probability noise draws bits 0
  (out.1, if bits.length > 0 then (out.2.1 : ℚ) / (bits.length : ℚ) else 0)

/-- Embedding of `BB84SimulationEngine.generate_random_bases`
(src/bb84_simulator.py lines 350-353): each position is an independent
`random.choice(['+', 'x'])`, modelled by a boolean draw per position. -/
def generate_random_bases (n : ℕ) (draws : ℕ → Bool) : List Char :=
  (List.range n).map (fun i => if draws i then '+' else 'x')

/-- Embedding of the classical branch of
`BB84SimulationEngine.generate_random_bits` (src/bb84_simulator.py line 338):
each position is an independent `random.randint(0, 1)`. -/
def generate_random_bits (n : ℕ) (draws : ℕ → Bool) : List Char :=
  (List.range n).map (fun i => if draws i then '1' else '0')

/-- The interception loop of the `intercept_resend` branch of
`simulate_eve_attack` (src/bb84_simulator.py lines 595-602): where Eve's
basis matches Alice's she forwards the bit, otherwise she forwards a fresh
uniform bit (`str(random.randint(0, 1))`, here `draws i` for position `i`). -/
def interceptBits : List Char → List Char → List Char → (ℕ → Bool) → ℕ → List Char
  | bit :: bits, aBase :: aBases, eBase :: eBases, draws, i =>
    (if aBase = eBase then bit else if draws i then '1' else '0') ::
      interceptBits bits aBases eBases draws (i + 1)
  | _, _, _, _, _ => []

/-- Embedding of `BB84SimulationEngine.simulate_eve_attack`
(src/bb84_simulator.py lines 584-607): a no-op for `'none'`; for
`'intercept_resend'` Eve measures in fresh random bases and resends, with the
fixed theoretical detection probability `0.25`; every other attack string
returns the empty strings and probability `0.0` (the source's accumulators
are never filled). -/
def simulate_eve_attack (alice_bits alice_bases : List Char) (attack_type : String)
    (eveBaseDraws eveBitDraws : ℕ → Bool) : List Char × List Char × ℚ :=
  if attack_type = "none" then (alice_bits, alice_bases, 0)
  else if attack_type = "intercept_resend" then
    let eve_bases := generate_random_bases alice_bits.length eveBaseDraws
    (interceptBits alice_bits alice_bases eve_bases eveBitDraws 0, eve_bases, 1 / 4)
  else ([], [], 0)

/-- One entry of `self.simulation_logs` as produced by `log_message`
(src/bb84_simulator.py lines 80-85); the wall-clock timestamp field is
outside the model. -/
structure LogEntry where
  message : String
  level : String
deriving DecidableEq

/-- A Python exception surfaced to the caller: `ValueError` raised by input
validation, or `TypeError` raised by `len(None)` when `privacy_amplification`
returns `None`. -/
inductive PyError where
  | valueError (msg : String)
  | typeError (msg : String)
deriving DecidableEq

/-- Decidable equality of run outcomes, for concrete evaluations. -/
instance exceptDecidableEq {ε α : Type} [DecidableEq ε] [DecidableEq α] :
    DecidableEq (Except ε α) := fun a b =>
  match a, b with
  | Except.ok x, Except.ok y =>
    if h : x = y then isTrue (by rw [h]) else isFalse (fun hc => h (Except.ok.inj hc))
  | Except.error x, Except.error y =>
    if h : x = y then isTrue (by rw [h]) else isFalse (fun hc => h (Except.error.inj hc))
  | Except.ok _, Except.error _ => isFalse (fun hc => Except.noConfusion hc)
  | Except.error _, Except.ok _ => isFalse (fun hc => Except.noConfusion hc)

/-- Draw oracles for the random sources consumed by one simulation run:
`channelDraws k` is the `k`-th `random.random()` of `apply_channel_effects`;
the boolean oracles give the per-position binary choices of Bob's bases,
Eve's bases and Eve's resent bits, and (in continuous mode) Alice's generated
bits and bases. -/
structure Oracles where
  channelDraws : ℕ → ℚ
  bobBaseDraws : ℕ → Bool
  eveBaseDraws : ℕ → Bool
  eveBitDraws : ℕ → Bool
  aliceBitDraws : ℕ → Bool
  aliceBaseDraws : ℕ → Bool

/-- The claim-relevant fields of the result dictionary returned by
`run_manual_simulation` (src/bb84_simulator.py lines 969-999). Presentation
fields (`transmission_data`, backend fidelities, rates, timing) are outside
the model; the `logs` entry is returned alongside the result. -/
structure ManualResult where
  alice_bits : List Char
  alice_bases : List Char
  bob_bits : List Char
  bob_bases : List Char
  eve_bases : List Char
  alice_sifted : List Char
  bob_sifted : List Char
  final_key : List Char
  qber : ℚ
  is_secure : Bool
  errors_corrected : ℕ
  eve_detection_probability : ℚ
  channel_error_rate : ℚ
deriving DecidableEq

/-- Python `str.upper()` (ASCII identifiers only in the engine). -/
def pyUpper (s : String) : String := ⟨s.data.map Char.toUpper⟩

/-- The opening log entry of `run_manual_simulation`
(src/bb84_simulator.py line 808), appended right after
`self.simulation_logs = []` and before input validation. -/
def start_log (protocol_variant : String) : LogEntry :=
  ⟨"Starting " ++ pyUpper protocol_variant ++ " simulation with manual input", "info"⟩

/-- The protocol-specific preparation log entry
(src/bb84_simulator.py lines 818-828). -/
def preparation_log (protocol_variant : String) (n : ℕ) : LogEntry :=
  if protocol_variant = "decoy" then
    ⟨"Alice prepares " ++ toString n ++ " qubits with decoy state intensities", "info"⟩
  else if protocol_variant = "sarg04" then
    ⟨"Alice prepares " ++ toString n ++ " qubits using SARG04 four-state encoding", "info"⟩
  else if protocol_variant = "six-state" then
    ⟨"Alice prepares " ++ toString n ++ " qubits using six-state (three-basis) protocol", "info"⟩
  else if protocol_variant = "custom" then
    ⟨"Alice prepares " ++ toString n ++ " qubits using custom protocol parameters", "info"⟩
  else
    ⟨"Alice prepares " ++ toString n ++ " qubits using standard BB84", "info"⟩

/-- The log entries of the variant-specific QBER adjustment
(src/bb84_simulator.py lines 860-880); empty for standard `bb84`. -/
def variant_adjust_log (protocol_variant : String) : List LogEntry :=
  if protocol_variant = "decoy" then
    [⟨"Decoy state security analysis applied - adjusted QBER", "info"⟩]
  else if protocol_variant = "sarg04" then
    [⟨"SARG04 complementary measurement statistics applied", "info"⟩]
  else if protocol_variant = "six-state" then
    [⟨"Six-state enhanced eavesdropping detection applied", "info"⟩]
  else if protocol_variant = "custom" then
    [⟨"Custom protocol error characteristics applied", "info"⟩]
  else []

/-- The security-decision log entry (src/bb84_simulator.py lines 885-888);
the source renders the QBER with three decimals, modelled here by the exact
rational rendering. -/
def security_log (qber : ℚ) (is_secure : Bool) : LogEntry :=
  if is_secure then
    ⟨"QBER: " ++ toString qber ++ " < threshold " ++ toString qber_threshold ++ " - Secure",
      "success"⟩
  else
    ⟨"QBER: " ++ toString qber ++ " > threshold " ++ toString qber_threshold ++ " - Not Secure",
      "error"⟩

/-- The privacy-amplification dispatch of `run_manual_simulation`
(src/bb84_simulator.py lines 919-932), together with the log line that
follows each branch. Each of the `standard`, `universal` and `toeplitz`
branches immediately formats `len(final_key)`; when `privacy_amplification`
returned `None` (the `toeplitz` fall-through on a non-empty key) this raises
`TypeError: object of type 'NoneType' has no len()`. -/
def pa_step (alice_corrected : List Char) (pa_method : String) :
    Except PyError (List Char × List LogEntry) :=
  if pa_method = "none" then
    Except.ok (alice_corrected, [⟨"Skipping privacy amplification (none selected)", "info"⟩])
  else if pa_method = "standard" then
    match privacy_amplification alice_corrected "standard" (1 / 2) with
    | some k => Except.ok (k,
        [⟨"Standard privacy amplification: Key reduced to " ++ toString k.length ++ " bits",
          "info"⟩])
    | none => Except.error (PyError.typeError "object of type NoneType has no len()")
  else if pa_method = "universal" then
    match privacy_amplification alice_corrected "universal" (1 / 2) with
    | some k => Except.ok (k,
        [⟨"Universal hashing privacy amplification: Key reduced to " ++ toString k.length ++
          " bits", "info"⟩])
    | none => Except.error (PyError.typeError "object of type NoneType has no len()")
  else if pa_method = "toeplitz" then
    match privacy_amplification alice_corrected "toeplitz" (1 / 2) with
    | some k => Except.ok (k,
        [⟨"Toeplitz matrix privacy amplification: Key reduced to " ++ toString k.length ++
          " bits", "info"⟩])
    | none => Except.error (PyError.typeError "object of type NoneType has no len()")
  else Except.ok (alice_corrected, [])

/-- The sifting-to-result tail of `run_manual_simulation`
(src/bb84_simulator.py lines 851-999): sifting, QBER with variant
adjustment, the strict security decision, error correction and privacy
amplification, assembling the result record. Log entries for the error
correction subroutine itself are omitted (they carry no data). -/
def run_post_sift (alice_bits alice_bases bob_bits bob_bases eve_bases : List Char)
    (eve_detection_prob channel_error_rate : ℚ)
    (error_correction pa_method protocol_variant : String)
    (logs : List LogEntry) : List LogEntry × Except PyError ManualResult :=
  let sifted := sift_keys alice_bits alice_bases bob_bits bob_bases
  let alice_sifted := sifted.1
  let bob_sifted := sifted.2
  let logs := logs ++
    [⟨"Key sifting: " ++ toString alice_sifted.length ++ " bits retained", "info"⟩]
  let qber := adjust_qber_variant protocol_variant (calculate_qber alice_sifted bob_sifted)
  let logs := logs ++ variant_adjust_log protocol_variant
  let is_secure := decide (qber < qber_threshold)
  let logs := logs ++ [security_log qber is_secure]
  let ec :=
    if error_correction = "none" then (alice_sifted, bob_sifted, 0)
    else if error_correction = "cascade" then
      error_correction_cascade alice_sifted bob_sifted "cascade"
    else if error_correction = "winnow" then
      error_correction_cascade alice_sifted bob_sifted "cascade"
    else if error_correction = "ldpc" then
      error_correction_cascade alice_sifted bob_sifted "cascade"
    else (alice_sifted, bob_sifted, 0)
  let alice_corrected := ec.1
  let errors_corrected := ec.2.2
  match pa_step alice_corrected pa_method with
  | Except.error e => (logs, Except.error e)
  | Except.ok fk =>
    (logs ++ fk.2, Except.ok
      { alice_bits := alice_bits
        alice_bases := alice_bases
        bob_bits := bob_bits
        bob_bases := bob_bases
        eve_bases := eve_bases
        alice_sifted := alice_sifted
        bob_sifted := bob_sifted
        final_key := fk.1
        qber := qber
        is_secure := is_secure
        errors_corrected := errors_corrected
        eve_detection_probability := eve_detection_prob
        channel_error_rate := channel_error_rate })

/-- The body of `run_manual_simulation` after input validation
(src/bb84_simulator.py lines 814-850): channel, optional Eve attack, Bob's
bases, then the `run_post_sift` tail. -/
def run_manual_body (bits bases : List Char) (loss_probability noise : ℚ)
    (eve_attack error_correction pa_method protocol_variant : String)
    (o : Oracles) (logs : List LogEntry) : List LogEntry × Except PyError ManualResult :=
  let alice_bits := bits
  let alice_bases := bases
  let logs := logs ++ [preparation_log protocol_variant alice_bits.length]
  let channel_out := apply_channel_effects alice_bits loss_probability noise o.channelDraws
  let channel_error_rate := channel_out.2
  let eve_step :=
    if eve_attack ≠ "none" then
      let e := simulate_eve_attack channel_out.1 alice_bases eve_attack
        o.eveBaseDraws o.eveBitDraws
      (e.1, e.2.1, e.2.2,
        logs ++ [⟨"Eve intercepts with " ++ eve_attack ++ " attack", "warning"⟩])
    else (channel_out.1, [], 0, logs)
  let transmitted_bits := eve_step.1
  let eve_bases := eve_step.2.1
  let eve_detection_prob := eve_step.2.2.1
  let logs := eve_step.2.2.2
  let bob_bases := generate_random_bases alice_bits.length o.bobBaseDraws
  let bob_bits := transmitted_bits
  let logs := logs ++ [⟨"Bob measures qubits with random bases", "info"⟩]
  run_post_sift alice_bits alice_bases bob_bits bob_bases eve_bases
    eve_detection_prob channel_error_rate error_correction pa_method protocol_variant logs

/-- Embedding of `BB84SimulationEngine.run_manual_simulation`
(src/bb84_simulator.py lines 801-999). The source first resets
`self.simulation_logs`, appends the start message, and only then validates
that the bit and basis strings have equal length, raising `ValueError`
otherwise; the log state at raise time is returned alongside the outcome. -/
def run_manual_simulation (bits bases : List Char) (loss_probability noise : ℚ)
    (eve_attack error_correction pa_method protocol_variant : String)
    (o : Oracles) : List LogEntry × Except PyError ManualResult :=
  let logs := [start_log protocol_variant]
  if bits.length ≠ bases.length then
    (logs, Except.error (PyError.valueError "Bits and bases strings must have the same length"))
  else
    run_manual_body bits bases loss_probability noise eve_attack error_correction
      pa_method protocol_variant o logs

/-- The claim-relevant fields of the result dictionary returned by
`run_photon_rate_continuous_simulation` (src/bb84_simulator.py lines
1062-1088); the dynamic float metrics and streaming flags are outside the
model. -/
structure ContinuousResult where
  alice_bits : List Char
  alice_bases : List Char
  bob_bases : List Char
  bob_bits : List Char
  alice_sifted : List Char
  bob_sifted : List Char
  final_key : List Char
  qber : ℚ
  is_secure : Bool
  errors_corrected : ℕ
  eve_bases : List Char
  eve_detection_probability : ℚ
deriving DecidableEq

/-- Embedding of `BB84SimulationEngine.run_photon_rate_continuous_simulation`
(src/bb84_simulator.py lines 1001-1088). `num_photons = min(int(rate * 0.1),
100)`; Alice's bits and bases are freshly drawn, the channel, optional Eve
attack, Bob's bases, sifting, QBER (no variant adjustment in this mode) and
the strict security decision follow; error correction dispatches on the
method string and privacy amplification is always invoked with the given
method (an unknown method makes it return `None`, and the following
`len(final_key)` raises `TypeError`). Log entries are not modelled for this
mode (no claim depends on them). -/
def run_photon_rate_continuous_simulation (photon_rate loss_probability noise : ℚ)
    (eve_attack error_correction pa_method : String) (o : Oracles) :
    Except PyError ContinuousResult :=
  let num_photons := min (Int.toNat ⌊photon_rate * (1 / 10)⌋) 100
  let alice_bits := generate_random_bits num_photons o.aliceBitDraws
  let alice_bases := generate_random_bases num_photons o.aliceBaseDraws
  let channel_out := apply_channel_effects alice_bits loss_probability noise o.channelDraws
  let eve_step :=
    if eve_attack ≠ "none" then
      let e := simulate_eve_attack channel_out.1 alice_bases eve_attack
        o.eveBaseDraws o.eveBitDraws
      (e.1, e.2.1, e.2.2.1)
    else (channel_out.1, [], 0)
  let bob_bases := generate_random_bases alice_bits.length o.bobBaseDraws
  let bob_bits := eve_step.1
  let sifted := sift_keys alice_bits alice_bases bob_bits bob_bases
  let qber := calculate_qber sifted.1 sifted.2
  let is_secure := decide (qber < qber_threshold)
  let ec :=
    if error_correction = "none" then (sifted.1, sifted.2, 0)
    else error_correction_cascade sifted.1 sifted.2 error_correction
  match privacy_amplification ec.1 pa_method (1 / 2) with
  | none => Except.error (PyError.typeError "object of type NoneType has no len()")
  | some final_key =>
    Except.ok
      { alice_bits := alice_bits
        alice_bases := alice_bases
        bob_bases := bob_bases
        bob_bits := bob_bits
        alice_sifted := sifted.1
        bob_sifted := sifted.2
        final_key := final_key
        qber := qber
        is_secure := is_secure
        errors_corrected := ec.2.2
        eve_bases := eve_step.2.1
        eve_detection_probability := eve_step.2.2 }

/-- Python `random.uniform(lo, hi)` with an explicit unit-interval draw `u`. -/
def pyuniform (lo hi u : ℚ) : ℚ := lo + (hi - lo) * u

/-- Python `round(x, ndigits)` on exact values: round half to even at the
`ndigits`-th decimal. -/
def pyRound (x : ℚ) (ndigits : ℕ) : ℚ :=
  let y := x * 10 ^ ndigits
  let f := ⌊y⌋
  let r := y - (f : ℚ)
  let n : ℤ :=
    if r < 1 / 2 then f
    else if 1 / 2 < r then f + 1
    else if f % 2 = 0 then f else f + 1
  (n : ℚ) / 10 ^ ndigits

/-- The metrics record assembled by `calculate_advanced_metrics`
(src/bb84_simulator.py lines 324-331). The source's result key
`privacy_amplification_ratio` is the field `privacy_amplification_frac`
here. -/
structure AdvancedMetrics where
  quantum_state_fidelity : ℚ
  decoherence_rate_ns : ℚ
  privacy_amplification_frac : ℚ
  gate_error_rate_percent : ℚ
  detector_jitter_ps : ℚ
  entanglement_fidelity : ℚ
deriving DecidableEq

/-- Embedding of `BB84SimulationEngine.calculate_advanced_metrics`
(src/bb84_simulator.py lines 284-333). The function reads `backend_type`,
`alice_sifted` and `final_key` from the result record and calls
`random.uniform` for the fidelity (non-classical backends), the decoherence
rate, the gate error rate (non-classical backends) and the detector jitter;
`u n` is the unit draw of the `n`-th `random.uniform` call site. -/
def calculate_advanced_metrics (backend_type : String)
    (alice_sifted final_key : List Char) (u : ℕ → ℚ) : AdvancedMetrics :=
  let quantum_state_fidelity :=
    if backend_type = "real_quantum" then 85 / 100 + pyuniform (-(1 / 10)) (1 / 10) (u 0)
    else if backend_type = "qiskit" then 95 / 100 + pyuniform (-(1 / 20)) (1 / 20) (u 0)
    else 1
  let decoherence_rate_ns :=
    if backend_type = "real_quantum" then pyuniform 50 150 (u 1)
    else pyuniform 100 200 (u 1)
  let sifted_length := alice_sifted.length
  let final_length := final_key.length
  let pa_frac := if sifted_length > 0 then (final_length : ℚ) / (sifted_length : ℚ) else 0
  let gate_error_rate_percent :=
    if backend_type = "real_quantum" then pyuniform (1 / 10) 1 (u 2)
    else if backend_type = "qiskit" then pyuniform (1 / 100) (1 / 10) (u 2)
    else 0
  let detector_jitter_ps := pyuniform 20 100 (u 3)
  { quantum_state_fidelity := pyRound quantum_state_fidelity 4
    decoherence_rate_ns := pyRound decoherence_rate_ns 2
    privacy_amplification_frac := pyRound pa_frac 4
    gate_error_rate_percent := pyRound gate_error_rate_percent 4
    detector_jitter_ps := pyRound detector_jitter_ps 2
    entanglement_fidelity := pyRound (quantum_state_fidelity * (9 / 10)) 4 }

/-- A fixed oracle bundle used by the concrete evaluations below: every
`random.random()` returns 1/2 and every binary choice takes the first
alternative (`'+'` bases, bit `'1'`). -/
def halfOracles : Oracles :=
  ⟨fun _ => 1 / 2, fun _ => true, fun _ => true, fun _ => true, fun _ => true, fun _ => true⟩

end BB84

namespace Lab

/-- Embedding of `BB84LabSimulator.calculate_qber`
(src/lab_simulator.py lines 226-232): the lab engine returns `0.0` when
Alice's sifted key is empty (it does not check Bob's), otherwise mismatches
of the zipped keys over Alice's length. Lab keys are `List[int]`. -/
def calculate_qber (sifted_key_alice sifted_key_bob : List ℤ) : ℚ :=
  if sifted_key_alice.length = 0 then 0
  else (((sifted_key_alice.zip sifted_key_bob).filter (fun p => p.1 ≠ p.2)).length : ℚ) /
    (sifted_key_alice.length : ℚ)

/-- The security decision reported by `BB84LabSimulator.run_simulation` in its
result record (src/lab_simulator.py line 365):
`'security_threshold_met': qber <= self.qber_threshold_percent / 100.0`,
a non-strict comparison of the QBER against the percent threshold. -/
def security_threshold_met (qber qber_threshold_percent : ℚ) : Bool :=
  decide (qber ≤ qber_threshold_percent / 100)

end Lab


namespace BB84

/-- On equal-length keys, the zip-based mismatch count of the source equals
the count of indices at which the keys differ. -/
theorem countMismatches_eq (a : List Char) : ∀ (b : List Char), a.length = b.length →
    countMismatches a b = mismatchIndexCount a b := by
  induction a with
  | nil =>
    intro b h
    cases b with
    | nil => rfl
    | cons y ys => simp at h
  | cons x xs ih =>
    intro b h
    cases b with
    | nil => simp at h
    | cons y ys =>
      simp only [List.length_cons, Nat.succ.injEq] at h
      have hrec := ih ys h
      unfold countMismatches mismatchIndexCount at hrec ⊢
      simp only [List.zip_cons_cons, List.filter_cons, List.length_cons,
        List.range_succ_eq_map, List.getD_cons_zero, List.getD_cons_succ,
        List.filter_map, List.length_map, Function.comp_def] at hrec ⊢
      simp only [ne_eq, decide_not, List.getD_eq_getElem?_getD] at hrec
      by_cases hxy : x = y
      · simp [hxy, hrec]
      · simp [hxy, hrec]

/-- Sifting always produces two outputs of equal length. -/
theorem sift_keys_length_eq : ∀ (A AB B BB : List Char),
    (sift_keys A AB B BB).1.length = (sift_keys A AB B BB).2.length := by
  intro A
  induction A with
  | nil => intro AB B BB; rfl
  | cons a as2 ih =>
    intro AB B BB
    cases AB with
    | nil => rfl
    | cons ab abs2 =>
      cases B with
      | nil => rfl
      | cons b bs =>
        cases BB with
        | nil => rfl
        | cons bb bbs =>
          unfold sift_keys
          by_cases hc : ab = bb ∧ b ≠ '?'
          · simp [hc, ih]
          · simp [hc, ih]

/-- The sifted key is never longer than Alice's bit string. -/
theorem sift_keys_length_le : ∀ (A AB B BB : List Char),
    (sift_keys A AB B BB).1.length ≤ A.length := by
  intro A
  induction A with
  | nil => intro AB B BB; simp [sift_keys]
  | cons a as2 ih =>
    intro AB B BB
    cases AB with
    | nil => simp [sift_keys]
    | cons ab abs2 =>
      cases B with
      | nil => simp [sift_keys]
      | cons b bs =>
        cases BB with
        | nil => simp [sift_keys]
        | cons bb bbs =>
          unfold sift_keys
          dsimp only
          by_cases hc : ab = bb ∧ b ≠ '?'
          · rw [if_pos hc]
            simp only [List.length_cons]
            exact Nat.succ_le_succ (ih abs2 bs bbs)
          · rw [if_neg hc]
            simp only [List.length_cons]
            exact Nat.le_succ_of_le (ih abs2 bs bbs)

/-- On equal-length inputs, sifting keeps exactly the indices at which the
bases agree and Bob's symbol is detected, in increasing index order, reading
Alice's and Bob's bits at those indices. -/
theorem sift_keys_eq_filter : ∀ (A AB B BB : List Char),
    A.length = AB.length → A.length = B.length → A.length = BB.length →
    sift_keys A AB B BB =
      (((List.range A.length).filter
          (fun i => AB.getD i ' ' = BB.getD i ' ' ∧ B.getD i ' ' ≠ '?')).map
        (fun i => A.getD i ' '),
       ((List.range A.length).filter
          (fun i => AB.getD i ' ' = BB.getD i ' ' ∧ B.getD i ' ' ≠ '?')).map
        (fun i => B.getD i ' ')) := by
  intro A
  induction A with
  | nil =>
    intro AB B BB h1 h2 h3
    simp [sift_keys]
  | cons a as2 ih =>
    intro AB B BB h1 h2 h3
    cases AB with
    | nil => simp at h1
    | cons ab abs2 =>
      cases B with
      | nil => simp at h2
      | cons b bs =>
        cases BB with
        | nil => simp at h3
        | cons bb bbs =>
          simp only [List.length_cons, Nat.succ.injEq] at h1 h2 h3
          have hrec := ih abs2 bs bbs h1 h2 h3
          unfold sift_keys
          simp only [List.length_cons, List.range_succ_eq_map,
            List.filter_cons, List.getD_cons_zero, List.getD_cons_succ,
            List.filter_map, List.map_map, Function.comp_def] at hrec ⊢
          simp only [ne_eq, decide_not, List.getD_eq_getElem?_getD] at hrec
          by_cases hc : ab = bb ∧ b ≠ '?'
          · simp [hc, hrec, Prod.ext_iff]
          · simp [hc, hrec, Prod.ext_iff]

/-- The pairwise XOR compression halves the length, rounding up. -/
theorem xorPairs_length (l : List Char) : (xorPairs l).length = (l.length + 1) / 2 := by
  induction l using xorPairs.induct with
  | case1 a b rest ih => simp [xorPairs, ih]; omega
  | case2 a => simp [xorPairs]
  | case3 => rfl

/-- Each full output position of the pairwise XOR compression is the XOR of
the two input bits it covers: `out[i] = in[2i] XOR in[2i+1]`. -/
theorem xorPairs_getD_even (l : List Char) : ∀ i, 2 * i + 1 < l.length →
    (xorPairs l).getD i ' ' =
      bitToChar (charToBit (l.getD (2 * i) ' ') ^^^ charToBit (l.getD (2 * i + 1) ' ')) := by
  induction l using xorPairs.induct with
  | case1 a b rest ih =>
    intro i hi
    cases i with
    | zero => simp [xorPairs]
    | succ j =>
      simp only [List.length_cons] at hi
      have hj : 2 * j + 1 < rest.length := by omega
      have h2 : 2 * (j + 1) = 2 * j + 1 + 1 := by omega
      simp only [xorPairs, h2, List.getD_cons_succ]
      simpa only [List.getD_eq_getElem?_getD] using ih j hj
  | case2 a => intro i hi; simp at hi
  | case3 => intro i hi; simp at hi

/-- On an odd-length input the trailing bit is copied through unchanged by
the pairwise XOR compression. -/
theorem xorPairs_getD_odd (l : List Char) (h : l.length % 2 = 1) :
    (xorPairs l).getD (l.length / 2) ' ' = l.getD (l.length - 1) ' ' := by
  induction l using xorPairs.induct with
  | case1 a b rest ih =>
    simp only [List.length_cons] at h ⊢
    have h2 : rest.length % 2 = 1 := by omega
    have h3 : (rest.length + 1 + 1) / 2 = rest.length / 2 + 1 := by omega
    have h4 : rest.length + 1 + 1 - 1 = (rest.length - 1) + 1 + 1 := by omega
    rw [h3, h4]
    simp only [xorPairs, List.getD_cons_succ]
    simpa only [List.getD_eq_getElem?_getD] using ih h2
  | case2 a => simp [xorPairs]
  | case3 => simp at h

/-- Flipping a bit character changes it. -/
theorem flipChar_ne_self (c : Char) (h : c = '0' ∨ c = '1') : flipChar c ≠ c := by
  rcases h with h | h <;> rw [h] <;> decide

/-- A flipped bit character is never the undetected sentinel. -/
theorem flipChar_ne_qmark (c : Char) (h : c = '0' ∨ c = '1') : flipChar c ≠ '?' := by
  rcases h with h | h <;> rw [h] <;> decide

/-- The channel loop preserves the number of symbols. -/
theorem channelLoop_length (lp noise : ℚ) (d : ℕ → ℚ) :
    ∀ (bits : List Char) (k : ℕ), (channelLoop lp noise d bits k).1.length = bits.length := by
  intro bits
  induction bits with
  | nil => intro k; rfl
  | cons bit bs ih =>
    intro k
    unfold channelLoop
    by_cases h1 : d k < lp
    · simp [h1, ih]
    · by_cases h2 : d (k + 1) < noise
      · simp [h1, h2, ih]
      · simp [h1, h2, ih]

/-- The error counter of the channel loop counts exactly the positions whose
received symbol is a detected flip: neither the sentinel `'?'` nor the
transmitted bit. -/
theorem channelLoop_errors (lp noise : ℚ) (d : ℕ → ℚ) :
    ∀ (bits : List Char) (k : ℕ), (∀ c ∈ bits, c = '0' ∨ c = '1') →
    (channelLoop lp noise d bits k).2.1 =
      ((bits.zip (channelLoop lp noise d bits k).1).filter
        (fun p => p.2 ≠ '?' ∧ p.2 ≠ p.1)).length := by
  intro bits
  induction bits with
  | nil => intro k hb; rfl
  | cons bit bs ih =>
    intro k hb
    have hbit : bit = '0' ∨ bit = '1' := hb bit (List.mem_cons_self bit bs)
    have hbs : ∀ c ∈ bs, c = '0' ∨ c = '1' := fun c hc => hb c (List.mem_cons_of_mem bit hc)
    unfold channelLoop
    by_cases h1 : d k < lp
    · simp only [if_pos h1, List.zip_cons_cons, List.filter_cons]
      simpa using ih (k + 1) hbs
    · by_cases h2 : d (k + 1) < noise
      · simp only [if_neg h1, if_pos h2, List.zip_cons_cons, List.filter_cons]
        have hne1 := flipChar_ne_qmark bit hbit
        have hne2 := flipChar_ne_self bit hbit
        simpa [hne1, hne2] using ih (k + 2) hbs
      · simp only [if_neg h1, if_neg h2, List.zip_cons_cons, List.filter_cons]
        simpa using ih (k + 2) hbs

/-- Every received symbol is exactly one of: the loss sentinel, the
transmitted bit unchanged, or the flipped bit. -/
theorem channelLoop_getD_cases (lp noise : ℚ) (d : ℕ → ℚ) :
    ∀ (bits : List Char) (k i : ℕ), i < bits.length →
    (channelLoop lp noise d bits k).1.getD i ' ' = '?' ∨
    (channelLoop lp noise d bits k).1.getD i ' ' = bits.getD i ' ' ∨
    (channelLoop lp noise d bits k).1.getD i ' ' = flipChar (bits.getD i ' ') := by
  intro bits
  induction bits with
  | nil => intro k i hi; simp at hi
  | cons bit bs ih =>
    intro k i hi
    unfold channelLoop
    by_cases h1 : d k < lp
    · cases i with
      | zero => simp [h1]
      | succ j =>
        simp only [List.length_cons] at hi
        have hj : j < bs.length := by omega
        simpa [h1, List.getD_cons_succ] using ih (k + 1) j hj
    · by_cases h2 : d (k + 1) < noise
      · cases i with
        | zero => simp [h1, h2]
        | succ j =>
          simp only [List.length_cons] at hi
          have hj : j < bs.length := by omega
          simpa [h1, h2, List.getD_cons_succ] using ih (k + 2) j hj
      · cases i with
        | zero => simp [h1, h2]
        | succ j =>
          simp only [List.length_cons] at hi
          have hj : j < bs.length := by omega
          simpa [h1, h2, List.getD_cons_succ] using ih (k + 2) j hj

end BB84

namespace BB84

/-- Every error produced by the privacy-amplification step is the `TypeError`
of taking the length of `None`; in particular it is never a `ValueError`. -/
theorem pa_step_error (ac : List Char) (m : String) (e : PyError)
    (h : pa_step ac m = Except.error e) :
    e = PyError.typeError "object of type NoneType has no len()" := by
  unfold pa_step at h
  repeat' split at h
  all_goals simp_all

/-- The error-correction dispatch of `run_manual_simulation` always hands
Alice's sifted key (unchanged) to privacy amplification, whatever the
method. -/
theorem ec_dispatch_fst (s1 s2 : List Char) (m : String) :
    (if m = "none" then (s1, s2, 0)
     else if m = "cascade" then error_correction_cascade s1 s2 "cascade"
     else if m = "winnow" then error_correction_cascade s1 s2 "cascade"
     else if m = "ldpc" then error_correction_cascade s1 s2 "cascade"
     else (s1, s2, (0 : ℕ))).1 = s1 := by
  unfold error_correction_cascade
  repeat' split
  all_goals rfl

/-- On a non-empty corrected key, the `toeplitz` privacy-amplification branch
raises the `TypeError` of taking `len(None)`. -/
theorem pa_step_toeplitz (ac : List Char) (hne : ac ≠ []) :
    pa_step ac "toeplitz" =
      Except.error (PyError.typeError "object of type NoneType has no len()") := by
  have hlen : ¬(ac.length = 0) := by simpa using hne
  have hpa : privacy_amplification ac "toeplitz" (1 / 2) = none := by
    unfold privacy_amplification
    rw [if_neg hlen, if_neg (by decide), if_neg (by decide), if_neg (by decide)]
  unfold pa_step
  rw [if_neg (by decide), if_neg (by decide), if_neg (by decide), if_pos rfl, hpa]

/-- A successful post-sifting phase reports exactly the variant-adjusted
QBER of its own sifted keys, and decides security by the strict threshold
comparison on that reported QBER. -/
theorem run_post_sift_ok_fields (A AB B BB EB : List Char) (edp cer : ℚ)
    (ec pa pv : String) (logs : List LogEntry) (r : ManualResult)
    (h : (run_post_sift A AB B BB EB edp cer ec pa pv logs).2 = Except.ok r) :
    r.qber = adjust_qber_variant pv (calculate_qber r.alice_sifted r.bob_sifted)
    ∧ r.is_secure = decide (r.qber < qber_threshold) := by
  unfold run_post_sift at h
  dsimp only at h
  split at h
  · simp at h
  · simp only [Except.ok.injEq] at h
    subst h
    exact ⟨rfl, rfl⟩

/-- The only exception the post-sifting phase can raise is the `TypeError`
of the unimplemented privacy-amplification methods. -/
theorem run_post_sift_error (A AB B BB EB : List Char) (edp cer : ℚ)
    (ec pa pv : String) (logs : List LogEntry) (e : PyError)
    (h : (run_post_sift A AB B BB EB edp cer ec pa pv logs).2 = Except.error e) :
    e = PyError.typeError "object of type NoneType has no len()" := by
  unfold run_post_sift at h
  dsimp only at h
  split at h
  case _ e2 heq =>
    have h2 := pa_step_error _ _ _ heq
    subst h2
    simpa using h.symm
  case _ => simp at h

/-- The post-sifting phase with the unimplemented `toeplitz` method either
raises the `TypeError` of `len(None)` (whenever the corrected key, which is
always Alice's sifted key, is non-empty) or, when the sifted key is empty,
returns a result with an empty sifted key and an empty final key. -/
theorem run_post_sift_toeplitz (A AB B BB EB : List Char) (edp cer : ℚ)
    (ec pv : String) (logs : List LogEntry) :
    (run_post_sift A AB B BB EB edp cer ec "toeplitz" pv logs).2 =
      Except.error (PyError.typeError "object of type NoneType has no len()") ∨
    ∃ r, (run_post_sift A AB B BB EB edp cer ec "toeplitz" pv logs).2 = Except.ok r
      ∧ r.alice_sifted = [] ∧ r.final_key = [] := by
  unfold run_post_sift
  dsimp only
  rw [ec_dispatch_fst]
  by_cases hS : (sift_keys A AB B BB).1 = []
  · rw [hS]
    have hps : pa_step [] "toeplitz" =
        Except.ok ([],
          [⟨"Toeplitz matrix privacy amplification: Key reduced to 0 bits", "info"⟩]) := by
      with_unfolding_all decide
    rw [hps]
    right
    exact ⟨_, rfl, rfl, rfl⟩
  · rw [pa_step_toeplitz _ hS]
    left
    rfl

/-- Field characterization of a successful manual run, through the
validation wrapper. -/
theorem run_manual_ok_fields (bits bases : List Char) (lp noise : ℚ)
    (ea ec pa pv : String) (o : Oracles) (r : ManualResult)
    (h : (run_manual_simulation bits bases lp noise ea ec pa pv o).2 = Except.ok r) :
    r.qber = adjust_qber_variant pv (calculate_qber r.alice_sifted r.bob_sifted)
    ∧ r.is_secure = decide (r.qber < qber_threshold) := by
  unfold run_manual_simulation at h
  split at h
  · simp at h
  · unfold run_manual_body at h
    dsimp only at h
    exact run_post_sift_ok_fields _ _ _ _ _ _ _ _ _ _ _ r h

/-- When the lengths agree, a manual run never raises a `ValueError`. -/
theorem run_manual_no_valueError (bits bases : List Char) (lp noise : ℚ)
    (ea ec pa pv : String) (o : Oracles) (msg : String)
    (hlen : bits.length = bases.length) :
    (run_manual_simulation bits bases lp noise ea ec pa pv o).2 ≠
      Except.error (PyError.valueError msg) := by
  intro h
  unfold run_manual_simulation at h
  rw [if_neg (by simp [hlen])] at h
  unfold run_manual_body at h
  dsimp only at h
  have := run_post_sift_error _ _ _ _ _ _ _ _ _ _ _ _ h
  simp at this

/-- A successful continuous run reports the raw QBER of its own sifted keys
and decides security by the strict threshold comparison on it. -/
theorem continuous_ok_fields (pr lp noise : ℚ) (ea ec pa : String) (o : Oracles)
    (r : ContinuousResult)
    (h : run_photon_rate_continuous_simulation pr lp noise ea ec pa o = Except.ok r) :
    r.qber = calculate_qber r.alice_sifted r.bob_sifted
    ∧ r.is_secure = decide (r.qber < qber_threshold) := by
  unfold run_photon_rate_continuous_simulation at h
  dsimp only at h
  split at h
  · simp at h
  · simp only [Except.ok.injEq] at h
    subst h
    exact ⟨rfl, rfl⟩

/-- A manual run with the unimplemented `toeplitz` method either raises the
`TypeError` of `len(None)` or, in the degenerate case of an empty sifted
key, returns a result with an empty sifted and final key. -/
theorem run_manual_toeplitz (bits bases : List Char) (lp noise : ℚ)
    (ea ec pv : String) (o : Oracles) (hlen : bits.length = bases.length) :
    (run_manual_simulation bits bases lp noise ea ec "toeplitz" pv o).2 =
      Except.error (PyError.typeError "object of type NoneType has no len()") ∨
    ∃ r, (run_manual_simulation bits bases lp noise ea ec "toeplitz" pv o).2 = Except.ok r
      ∧ r.alice_sifted = [] ∧ r.final_key = [] := by
  unfold run_manual_simulation
  rw [if_neg (by simp [hlen])]
  unfold run_manual_body
  dsimp only
  exact run_post_sift_toeplitz _ _ _ _ _ _ _ _ _ _

end BB84

namespace BB84

/-- C2, counterexample: the claim says the QBER calculation returns exactly
`1.0` whenever either sifted key is empty, but the lab engine's
`calculate_qber` returns `0.0` on the empty sifted keys. -/
theorem C2_counterexample : Lab.calculate_qber [] [] = 0 ∧ (0 : ℚ) ≠ 1 := by
  constructor
  · with_unfolding_all decide
  · norm_num

/-- C2 (amended): the single-run engine's `calculate_qber` returns exactly
`1.0` whenever either sifted key is empty and otherwise the number of
mismatching positions divided by the length of Alice's sifted key; the lab
engine's `calculate_qber` instead returns `0.0` when Alice's sifted key is
empty (checking only Alice's) and otherwise the same ratio. -/
theorem C2_qber_calculation :
    (∀ a b : List Char, a.length = 0 ∨ b.length = 0 → calculate_qber a b = 1)
    ∧ (∀ a b : List Char, a ≠ [] → b ≠ [] →
        calculate_qber a b = (countMismatches a b : ℚ) / (a.length : ℚ))
    ∧ (∀ a b : List Char, a.length = b.length → a ≠ [] →
        calculate_qber a b = (mismatchIndexCount a b : ℚ) / (a.length : ℚ))
    ∧ (∀ lb : List ℤ, Lab.calculate_qber [] lb = 0)
    ∧ (∀ la lb : List ℤ, la ≠ [] →
        Lab.calculate_qber la lb =
          (((la.zip lb).filter (fun p => p.1 ≠ p.2)).length : ℚ) / (la.length : ℚ)) := by
  refine ⟨?_, ?_, ?_, ?_, ?_⟩
  · intro a b h
    unfold calculate_qber
    rw [if_pos h]
  · intro a b ha hb
    unfold calculate_qber
    rw [if_neg (by simp [ha, hb])]
  · intro a b hlen ha
    unfold calculate_qber
    have hb : b ≠ [] := by
      intro hb
      subst hb
      simp at hlen
      exact ha hlen
    rw [if_neg (by simp [ha, hb]), countMismatches_eq a b hlen]
  · intro lb
    unfold Lab.calculate_qber
    simp
  · intro la lb ha
    unfold Lab.calculate_qber
    rw [if_neg (by simp [ha])]

/-- C2, witness instances of the amended statement. -/
theorem C2_witness :
    calculate_qber [] ['0'] = 1
    ∧ calculate_qber ['0', '1'] ['0', '0'] =
        ((mismatchIndexCount ['0', '1'] ['0', '0'] : ℚ) / ((['0', '1'] : List Char).length : ℚ))
    ∧ Lab.calculate_qber [0, 1] [0, 0] =
        (((([0, 1] : List ℤ).zip ([0, 0] : List ℤ)).filter
          (fun p => p.1 ≠ p.2)).length : ℚ) / ((([0, 1] : List ℤ).length : ℚ)) :=
  ⟨C2_qber_calculation.1 [] ['0'] (by decide),
   C2_qber_calculation.2.2.1 ['0', '1'] ['0', '0'] (by decide) (by decide),
   C2_qber_calculation.2.2.2.2 [0, 1] [0, 0] (by decide)⟩

/-- C5, counterexample: on the non-empty one-bit key the `standard` method
returns the whole key (length 1) although the claim's
`floor(len * amplification_factor)` prefix would be empty: the source
clamps the new length with `max(1, ·)`. -/
theorem C5_counterexample :
    privacy_amplification ['1'] "standard" (1 / 2) = some ['1']
    ∧ Int.toNat ⌊(((['1'] : List Char).length : ℚ)) * (1 / 2)⌋ = 0 := by
  constructor
  · with_unfolding_all decide
  · with_unfolding_all decide

/-- C5 (amended): for every non-empty key, `none` is the identity,
`standard` returns the prefix of length `max(1, floor(len * factor))`
(default factor 0.5, so an 8-bit key becomes 4 bits), `universal` XOR-compresses
adjacent bit pairs (`out[i] = in[2i] XOR in[2i+1]`, trailing odd bit copied
through) and truncates to `max(1, floor(len * 0.6))` (so `"1010"` becomes
`"11"`); for each of these three methods the output is never longer than
the input. -/
theorem C5_privacy_amplification :
    (∀ (key : List Char) (f : ℚ), key ≠ [] →
      privacy_amplification key "none" f = some key
      ∧ privacy_amplification key "standard" f =
          some (key.take (max 1 (Int.toNat ⌊(key.length : ℚ) * f⌋)))
      ∧ privacy_amplification key "universal" f =
          some ((xorPairs key).take (max 1 (Int.toNat ⌊(key.length : ℚ) * (6 / 10)⌋)))
      ∧ (∀ out : List Char, privacy_amplification key "none" f = some out →
          out.length ≤ key.length)
      ∧ (∀ out : List Char, privacy_amplification key "standard" f = some out →
          out.length ≤ key.length)
      ∧ (∀ out : List Char, privacy_amplification key "universal" f = some out →
          out.length ≤ key.length))
    ∧ (∀ (key : List Char) (i : ℕ), 2 * i + 1 < key.length →
        (xorPairs key).getD i ' ' =
          bitToChar (charToBit (key.getD (2 * i) ' ') ^^^ charToBit (key.getD (2 * i + 1) ' ')))
    ∧ (∀ key : List Char, key.length % 2 = 1 →
        (xorPairs key).getD (key.length / 2) ' ' = key.getD (key.length - 1) ' ')
    ∧ (privacy_amplification ['1', '0', '1', '0', '1', '0', '1', '0'] "standard" (1 / 2)).map
        List.length = some 4
    ∧ privacy_amplification ['1', '0', '1', '0'] "universal" (1 / 2) = some ['1', '1'] := by
  refine ⟨?_, xorPairs_getD_even, xorPairs_getD_odd, ?_, ?_⟩
  · intro key f hk
    have hlen : ¬(key.length = 0) := by simpa using hk
    have hnone : privacy_amplification key "none" f = some key := by
      unfold privacy_amplification
      rw [if_neg hlen, if_pos rfl]
    have hstd : privacy_amplification key "standard" f =
        some (key.take (max 1 (Int.toNat ⌊(key.length : ℚ) * f⌋))) := by
      unfold privacy_amplification
      rw [if_neg hlen, if_neg (by decide), if_pos rfl]
    have huniv : privacy_amplification key "universal" f =
        some ((xorPairs key).take (max 1 (Int.toNat ⌊(key.length : ℚ) * (6 / 10)⌋))) := by
      unfold privacy_amplification
      rw [if_neg hlen, if_neg (by decide), if_neg (by decide), if_pos rfl]
    refine ⟨hnone, hstd, huniv, ?_, ?_, ?_⟩
    · intro out hout
      rw [hnone] at hout
      simp only [Option.some.injEq] at hout
      subst hout
      exact le_rfl
    · intro out hout
      rw [hstd] at hout
      simp only [Option.some.injEq] at hout
      subst hout
      rw [List.length_take]
      exact min_le_right _ _
    · intro out hout
      rw [huniv] at hout
      simp only [Option.some.injEq] at hout
      subst hout
      have h1 : ((xorPairs key).take (max 1 (Int.toNat ⌊(key.length : ℚ) * (6 / 10)⌋))).length ≤
          (xorPairs key).length := by
        rw [List.length_take]
        exact min_le_right _ _
      have h2 : (xorPairs key).length = (key.length + 1) / 2 := xorPairs_length key
      have h3 : 1 ≤ key.length := by
        cases key with
        | nil => exact absurd rfl hk
        | cons c cs => simp
      omega
  · with_unfolding_all decide
  · with_unfolding_all decide

/-- C5, witness instances of the amended statement at the two-bit key. -/
theorem C5_witness :
    privacy_amplification ['1', '0'] "none" (1 / 2) = some ['1', '0']
    ∧ privacy_amplification ['1', '0'] "standard" (1 / 2) =
        some ((['1', '0'] : List Char).take
          (max 1 (Int.toNat ⌊(((['1', '0'] : List Char).length : ℚ)) * (1 / 2)⌋)))
    ∧ (xorPairs ['1', '0', '1']).getD ((['1', '0', '1'] : List Char).length / 2) ' ' =
        (['1', '0', '1'] : List Char).getD ((['1', '0', '1'] : List Char).length - 1) ' ' :=
  ⟨(C5_privacy_amplification.1 ['1', '0'] (1 / 2) (by decide)).1,
   (C5_privacy_amplification.1 ['1', '0'] (1 / 2) (by decide)).2.1,
   C5_privacy_amplification.2.2.1 ['1', '0', '1'] (by decide)⟩

/-- C6: the `cascade`, `winnow` and `ldpc` methods all return Alice's sifted
key for both corrected outputs together with the zip-mismatch count of the
two sifted keys (the error count before correction, i.e. the number of
differing positions when the keys have equal length); `none` returns the
keys unmodified with zero. -/
theorem C6_error_correction :
    (∀ a b : List Char,
      error_correction_cascade a b "none" = (a, b, 0)
      ∧ error_correction_cascade a b "cascade" = (a, a, countMismatches a b)
      ∧ error_correction_cascade a b "winnow" = (a, a, countMismatches a b)
      ∧ error_correction_cascade a b "ldpc" = (a, a, countMismatches a b))
    ∧ (∀ a b : List Char, a.length = b.length →
        countMismatches a b = mismatchIndexCount a b) := by
  refine ⟨?_, countMismatches_eq⟩
  intro a b
  refine ⟨?_, ?_, ?_, ?_⟩
  · unfold error_correction_cascade
    rw [if_pos rfl]
  · unfold error_correction_cascade
    rw [if_neg (by decide), if_pos rfl]
  · unfold error_correction_cascade
    rw [if_neg (by decide), if_neg (by decide), if_pos rfl]
  · unfold error_correction_cascade
    rw [if_neg (by decide), if_neg (by decide), if_neg (by decide), if_pos rfl]

/-- C6, witness instance of the mismatch-count characterization. -/
theorem C6_witness :
    error_correction_cascade ['0', '1'] ['0', '0'] "cascade" =
      (['0', '1'], ['0', '1'], countMismatches ['0', '1'] ['0', '0'])
    ∧ countMismatches ['0', '1'] ['0', '0'] = mismatchIndexCount ['0', '1'] ['0', '0'] :=
  ⟨(C6_error_correction.1 ['0', '1'] ['0', '0']).2.1,
   C6_error_correction.2 ['0', '1'] ['0', '0'] (by decide)⟩

/-- C7: sifting always yields two equal-length outputs no longer than
Alice's bit string, and on equal-length inputs it keeps exactly the indices
at which the bases agree and Bob's bit is not the undetected sentinel `'?'`,
in the original order. -/
theorem C7_sifting :
    (∀ A AB B BB : List Char,
      (sift_keys A AB B BB).1.length = (sift_keys A AB B BB).2.length
      ∧ (sift_keys A AB B BB).1.length ≤ A.length)
    ∧ (∀ A AB B BB : List Char,
        A.length = AB.length → A.length = B.length → A.length = BB.length →
        sift_keys A AB B BB =
          (((List.range A.length).filter
              (fun i => AB.getD i ' ' = BB.getD i ' ' ∧ B.getD i ' ' ≠ '?')).map
            (fun i => A.getD i ' '),
           ((List.range A.length).filter
              (fun i => AB.getD i ' ' = BB.getD i ' ' ∧ B.getD i ' ' ≠ '?')).map
            (fun i => B.getD i ' '))) :=
  ⟨fun A AB B BB => ⟨sift_keys_length_eq A AB B BB, sift_keys_length_le A AB B BB⟩,
   sift_keys_eq_filter⟩

/-- C7, witness instance on a concrete four-symbol input with one basis
mismatch and one undetected symbol. -/
theorem C7_witness :
    sift_keys ['0', '1', '1', '0'] ['+', 'x', '+', 'x'] ['0', '?', '1', '0']
        ['+', 'x', 'x', 'x'] =
      (((List.range (['0', '1', '1', '0'] : List Char).length).filter
          (fun i => (['+', 'x', '+', 'x'] : List Char).getD i ' ' =
              (['+', 'x', 'x', 'x'] : List Char).getD i ' ' ∧
            (['0', '?', '1', '0'] : List Char).getD i ' ' ≠ '?')).map
        (fun i => (['0', '1', '1', '0'] : List Char).getD i ' '),
       ((List.range (['0', '1', '1', '0'] : List Char).length).filter
          (fun i => (['+', 'x', '+', 'x'] : List Char).getD i ' ' =
              (['+', 'x', 'x', 'x'] : List Char).getD i ' ' ∧
            (['0', '?', '1', '0'] : List Char).getD i ' ' ≠ '?')).map
        (fun i => (['0', '?', '1', '0'] : List Char).getD i ' ')) :=
  C7_sifting.2 ['0', '1', '1', '0'] ['+', 'x', '+', 'x'] ['0', '?', '1', '0']
    ['+', 'x', 'x', 'x'] (by decide) (by decide) (by decide)

end BB84

namespace BB84

/-- C1, counterexample: the lab engine's `security_threshold_met` output is
the non-strict comparison, so at a QBER exactly equal to the threshold
(0.085 for the default 8.5 percent) it reports the threshold as met although
the strict comparison the claim asserts is false. -/
theorem C1_counterexample :
    Lab.security_threshold_met (17 / 200) (17 / 2) = true
    ∧ ¬((17 / 200 : ℚ) < (17 / 2) / 100) := by
  constructor
  · with_unfolding_all decide
  · with_unfolding_all decide

/-- C1 (amended): in the single-run engine and in the continuous engine every
returned result satisfies `is_secure = true ↔ qber < qber_threshold` with the
strict comparison on the (variant-adjusted) reported QBER; the lab engine's
`security_threshold_met` output is instead the non-strict comparison
`qber ≤ qber_threshold_percent / 100`, which differs exactly at equality. -/
theorem C1_security_decision :
    (∀ (bits bases : List Char) (lp noise : ℚ) (ea ec pa pv : String) (o : Oracles)
        (r : ManualResult),
      (run_manual_simulation bits bases lp noise ea ec pa pv o).2 = Except.ok r →
      (r.is_secure = true ↔ r.qber < qber_threshold))
    ∧ (∀ (pr lp noise : ℚ) (ea ec pa : String) (o : Oracles) (r : ContinuousResult),
        run_photon_rate_continuous_simulation pr lp noise ea ec pa o = Except.ok r →
        (r.is_secure = true ↔ r.qber < qber_threshold))
    ∧ (∀ q t : ℚ, Lab.security_threshold_met q t = true ↔ q ≤ t / 100) := by
  refine ⟨?_, ?_, ?_⟩
  · intro bits bases lp noise ea ec pa pv o r h
    rw [(run_manual_ok_fields bits bases lp noise ea ec pa pv o r h).2]
    exact decide_eq_true_iff
  · intro pr lp noise ea ec pa o r h
    rw [(continuous_ok_fields pr lp noise ea ec pa o r h).2]
    exact decide_eq_true_iff
  · intro q t
    unfold Lab.security_threshold_met
    exact decide_eq_true_iff

/-- C1, witness: the security decision of a concrete successful manual run,
and the lab comparison at a concrete QBER. -/
theorem C1_witness :
    ((⟨['0', '1', '1', '0'], ['+', 'x', '+', 'x'], ['0', '1', '1', '0'], ['+', '+', '+', '+'],
        [], ['0', '1'], ['0', '1'], ['0'], 0, true, 0, 0, 0⟩ : ManualResult).is_secure = true ↔
      (⟨['0', '1', '1', '0'], ['+', 'x', '+', 'x'], ['0', '1', '1', '0'], ['+', '+', '+', '+'],
        [], ['0', '1'], ['0', '1'], ['0'], 0, true, 0, 0, 0⟩ : ManualResult).qber <
        qber_threshold)
    ∧ (Lab.security_threshold_met 0 (17 / 2) = true ↔ (0 : ℚ) ≤ (17 / 2) / 100) :=
  ⟨C1_security_decision.1 ['0', '1', '1', '0'] ['+', 'x', '+', 'x'] 0 0 "none" "cascade"
      "standard" "decoy" halfOracles _ (by with_unfolding_all decide),
   C1_security_decision.2.2 0 (17 / 2)⟩

/-- C3: the protocol-variant adjustment multiplies the raw QBER by 0.98 for
decoy (raw 0.10 becomes 0.098), by 1.10 capped at 0.5 for SARG04, by 0.95
for six-state, by 1.0 for custom, and leaves standard `bb84` unchanged; and
every successful manual run reports exactly the adjustment applied once to
the raw QBER computed from its own sifted keys. -/
theorem C3_variant_adjustment :
    (∀ q : ℚ,
      adjust_qber_variant "decoy" q = q * (98 / 100)
      ∧ adjust_qber_variant "sarg04" q = min (q * (11 / 10)) (1 / 2)
      ∧ adjust_qber_variant "six-state" q = q * (95 / 100)
      ∧ adjust_qber_variant "custom" q = q
      ∧ adjust_qber_variant "bb84" q = q)
    ∧ adjust_qber_variant "decoy" (1 / 10) = 98 / 1000
    ∧ (∀ (bits bases : List Char) (lp noise : ℚ) (ea ec pa pv : String) (o : Oracles)
        (r : ManualResult),
      (run_manual_simulation bits bases lp noise ea ec pa pv o).2 = Except.ok r →
      r.qber = adjust_qber_variant pv (calculate_qber r.alice_sifted r.bob_sifted)) := by
  refine ⟨?_, by with_unfolding_all decide, ?_⟩
  · intro q
    refine ⟨?_, ?_, ?_, ?_, ?_⟩
    · unfold adjust_qber_variant
      rw [if_pos rfl]
    · unfold adjust_qber_variant
      rw [if_neg (by decide), if_pos rfl]
    · unfold adjust_qber_variant
      rw [if_neg (by decide), if_neg (by decide), if_pos rfl]
    · unfold adjust_qber_variant
      rw [if_neg (by decide), if_neg (by decide), if_neg (by decide), if_pos rfl]
      exact mul_one q
    · unfold adjust_qber_variant
      rw [if_neg (by decide), if_neg (by decide), if_neg (by decide), if_neg (by decide)]
  · intro bits bases lp noise ea ec pa pv o r h
    exact (run_manual_ok_fields bits bases lp noise ea ec pa pv o r h).1

/-- C3, witness: the adjustment table at the scenario value and the reported
QBER of a concrete successful decoy run. -/
theorem C3_witness :
    adjust_qber_variant "sarg04" (1 / 10) = min ((1 / 10 : ℚ) * (11 / 10)) (1 / 2)
    ∧ (⟨['0', '1', '1', '0'], ['+', 'x', '+', 'x'], ['0', '1', '1', '0'], ['+', '+', '+', '+'],
        [], ['0', '1'], ['0', '1'], ['0'], 0, true, 0, 0, 0⟩ : ManualResult).qber =
      adjust_qber_variant "decoy"
        (calculate_qber
          (⟨['0', '1', '1', '0'], ['+', 'x', '+', 'x'], ['0', '1', '1', '0'],
            ['+', '+', '+', '+'], [], ['0', '1'], ['0', '1'], ['0'], 0, true, 0, 0,
            0⟩ : ManualResult).alice_sifted
          (⟨['0', '1', '1', '0'], ['+', 'x', '+', 'x'], ['0', '1', '1', '0'],
            ['+', '+', '+', '+'], [], ['0', '1'], ['0', '1'], ['0'], 0, true, 0, 0,
            0⟩ : ManualResult).bob_sifted) :=
  ⟨(C3_variant_adjustment.1 (1 / 10)).2.1,
   C3_variant_adjustment.2.2 ['0', '1', '1', '0'] ['+', 'x', '+', 'x'] 0 0 "none" "cascade"
     "standard" "decoy" halfOracles _ (by with_unfolding_all decide)⟩

/-- C9, counterexample: on mismatched lengths the run does raise the
validation `ValueError`, but the log state at raise time already holds the
start entry: the log sequence was reset and appended to before validation,
refuting that no state is modified before the error is raised. -/
theorem C9_counterexample :
    (run_manual_simulation ['0'] ['+', '+'] 0 0 "none" "none" "none" "bb84" halfOracles).2 =
      Except.error (PyError.valueError "Bits and bases strings must have the same length")
    ∧ (run_manual_simulation ['0'] ['+', '+'] 0 0 "none" "none" "none" "bb84" halfOracles).1 =
      [start_log "bb84"]
    ∧ [start_log "bb84"] ≠ ([] : List LogEntry) := by
  refine ⟨?_, ?_, ?_⟩
  · with_unfolding_all decide
  · with_unfolding_all decide
  · with_unfolding_all decide

/-- C9 (amended): the manual run raises the validation `ValueError` with its
descriptive message if and only if the bit and basis strings have different
lengths, and the rejection happens before any simulation computation except
the log initialization: at raise time the log sequence holds exactly the
start entry (the source resets the log and appends the start message before
validating). -/
theorem C9_validation :
    ∀ (bits bases : List Char) (lp noise : ℚ) (ea ec pa pv : String) (o : Oracles),
      ((run_manual_simulation bits bases lp noise ea ec pa pv o).2 =
          Except.error (PyError.valueError "Bits and bases strings must have the same length")
        ↔ bits.length ≠ bases.length)
      ∧ (bits.length ≠ bases.length →
          (run_manual_simulation bits bases lp noise ea ec pa pv o).1 = [start_log pv]) := by
  intro bits bases lp noise ea ec pa pv o
  constructor
  · constructor
    · intro h
      by_contra hlen
      exact run_manual_no_valueError bits bases lp noise ea ec pa pv o
        "Bits and bases strings must have the same length" hlen h
    · intro hlen
      unfold run_manual_simulation
      rw [if_pos hlen]
  · intro hlen
    unfold run_manual_simulation
    rw [if_pos hlen]

/-- C9, witness: the amended statement at a concrete mismatched input. -/
theorem C9_witness :
    ((run_manual_simulation ['0', '1'] ['+'] 0 0 "none" "none" "none" "sarg04"
        halfOracles).2 =
        Except.error (PyError.valueError "Bits and bases strings must have the same length")
      ↔ (['0', '1'] : List Char).length ≠ (['+'] : List Char).length)
    ∧ (run_manual_simulation ['0', '1'] ['+'] 0 0 "none" "none" "none" "sarg04"
        halfOracles).1 = [start_log "sarg04"] :=
  ⟨(C9_validation ['0', '1'] ['+'] 0 0 "none" "none" "none" "sarg04" halfOracles).1,
   (C9_validation ['0', '1'] ['+'] 0 0 "none" "none" "none" "sarg04" halfOracles).2
     (by decide)⟩

/-- C10: for every non-empty key, any method outside `none`, `standard` and
`universal` — in particular `toeplitz` — makes `privacy_amplification` fall
through and return `None`; consequently a manual run with the `toeplitz`
method raises the `TypeError` of `len(None)` whenever its corrected key is
non-empty (and on the degenerate empty sifted key returns an empty final
key), as the concrete run exhibits. -/
theorem C10_toeplitz :
    (∀ (key : List Char) (m : String) (f : ℚ), key ≠ [] →
      m ≠ "none" → m ≠ "standard" → m ≠ "universal" →
      privacy_amplification key m f = none)
    ∧ (∀ (bits bases : List Char) (lp noise : ℚ) (ea ec pv : String) (o : Oracles),
        bits.length = bases.length →
        (run_manual_simulation bits bases lp noise ea ec "toeplitz" pv o).2 =
          Except.error (PyError.typeError "object of type NoneType has no len()") ∨
        ∃ r, (run_manual_simulation bits bases lp noise ea ec "toeplitz" pv o).2 =
            Except.ok r ∧ r.alice_sifted = [] ∧ r.final_key = [])
    ∧ (run_manual_simulation ['0'] ['+'] 0 0 "none" "none" "toeplitz" "bb84"
        halfOracles).2 =
      Except.error (PyError.typeError "object of type NoneType has no len()") := by
  refine ⟨?_, ?_, by with_unfolding_all decide⟩
  · intro key m f hk h1 h2 h3
    have hlen : ¬(key.length = 0) := by simpa using hk
    unfold privacy_amplification
    rw [if_neg hlen, if_neg h1, if_neg h2, if_neg h3]
  · intro bits bases lp noise ea ec pv o hlen
    exact run_manual_toeplitz bits bases lp noise ea ec pv o hlen

/-- C10, witness: the fall-through on a concrete non-empty key and the
dichotomy at a concrete run. -/
theorem C10_witness :
    privacy_amplification ['1'] "toeplitz" (1 / 2) = none
    ∧ ((run_manual_simulation ['1'] ['x'] 0 0 "none" "ldpc" "toeplitz" "six-state"
          halfOracles).2 =
        Except.error (PyError.typeError "object of type NoneType has no len()") ∨
      ∃ r, (run_manual_simulation ['1'] ['x'] 0 0 "none" "ldpc" "toeplitz" "six-state"
          halfOracles).2 = Except.ok r ∧ r.alice_sifted = [] ∧ r.final_key = []) :=
  ⟨C10_toeplitz.1 ['1'] "toeplitz" (1 / 2) (by decide) (by decide) (by decide) (by decide),
   C10_toeplitz.2.1 ['1'] ['x'] 0 0 "none" "ldpc" "six-state" halfOracles (by decide)⟩

end BB84

namespace BB84

/-- C4: the channel model. The loss probability is
`min(1 - 10^(-(0.184*distance_km + noise*0.5)/10), 0.85)` (the source takes
the distance in meters and divides by 1000); per transmitted bit the loop
checks loss first and emits the sentinel `'?'`, otherwise checks noise and
flips the bit counting a channel error, otherwise passes the bit unchanged
— so each received symbol is exactly one of the three outcomes — and the
returned channel error rate is flips over the number of input bits, `0` for
empty input. -/
theorem C4_channel_model :
    (∀ dkm n : ℝ, loss_probability_formula (dkm * 1000) n =
        min (1 - (10 : ℝ) ^ (-(0.184 * dkm + n * 0.5) / 10)) 0.85)
    ∧ (∀ (lp n : ℚ) (d : ℕ → ℚ) (bits : List Char) (k : ℕ),
        (channelLoop lp n d bits k).1.length = bits.length)
    ∧ (∀ (lp n : ℚ) (d : ℕ → ℚ) (bits : List Char) (k : ℕ),
        (∀ c ∈ bits, c = '0' ∨ c = '1') →
        (channelLoop lp n d bits k).2.1 =
          ((bits.zip (channelLoop lp n d bits k).1).filter
            (fun p => p.2 ≠ '?' ∧ p.2 ≠ p.1)).length)
    ∧ (∀ (lp n : ℚ) (d : ℕ → ℚ) (bits : List Char), bits ≠ [] →
        (∀ c ∈ bits, c = '0' ∨ c = '1') →
        (apply_channel_effects bits lp n d).2 =
          (((bits.zip (apply_channel_effects bits lp n d).1).filter
            (fun p => p.2 ≠ '?' ∧ p.2 ≠ p.1)).length : ℚ) / (bits.length : ℚ))
    ∧ (∀ (lp n : ℚ) (d : ℕ → ℚ), (apply_channel_effects [] lp n d).2 = 0)
    ∧ (∀ (lp n : ℚ) (d : ℕ → ℚ) (bits : List Char) (k i : ℕ), i < bits.length →
        (channelLoop lp n d bits k).1.getD i ' ' = '?' ∨
        (channelLoop lp n d bits k).1.getD i ' ' = bits.getD i ' ' ∨
        (channelLoop lp n d bits k).1.getD i ' ' = flipChar (bits.getD i ' '))
    ∧ (∀ (lp n : ℚ) (d : ℕ → ℚ) (bit : Char) (bits : List Char) (k : ℕ),
        (d k < lp →
          (channelLoop lp n d (bit :: bits) k).1.headD ' ' = '?'
          ∧ (channelLoop lp n d (bit :: bits) k).2.1 =
            (channelLoop lp n d bits (k + 1)).2.1)
        ∧ (¬ d k < lp → d (k + 1) < n →
          (channelLoop lp n d (bit :: bits) k).1.headD ' ' = flipChar bit
          ∧ (channelLoop lp n d (bit :: bits) k).2.1 =
            (channelLoop lp n d bits (k + 2)).2.1 + 1)
        ∧ (¬ d k < lp → ¬ d (k + 1) < n →
          (channelLoop lp n d (bit :: bits) k).1.headD ' ' = bit
          ∧ (channelLoop lp n d (bit :: bits) k).2.1 =
            (channelLoop lp n d bits (k + 2)).2.1)) := by
  refine ⟨?_, channelLoop_length, channelLoop_errors, ?_, ?_, channelLoop_getD_cases, ?_⟩
  · intro dkm n
    unfold loss_probability_formula
    dsimp only
    have harg : -(0.184 * (dkm * 1000) / 1000 + n * 0.5) / 10 =
        -(0.184 * dkm + n * 0.5) / 10 := by ring
    rw [harg]
  · intro lp n d bits hne hb
    unfold apply_channel_effects
    dsimp only
    rw [if_pos (by simpa [List.length_pos] using hne)]
    rw [channelLoop_errors lp n d bits 0 hb]
  · intro lp n d
    simp [apply_channel_effects, channelLoop]
  · intro lp n d bit bits k
    refine ⟨?_, ?_, ?_⟩
    · intro h1
      constructor
      · simp [channelLoop, h1]
      · simp [channelLoop, h1]
    · intro h1 h2
      constructor
      · simp [channelLoop, h1, h2]
      · simp [channelLoop, h1, h2]
    · intro h1 h2
      constructor
      · simp [channelLoop, h1, h2]
      · simp [channelLoop, h1, h2]

/-- C4, witness: the error count and error rate on a concrete two-bit
transmission where the first draw forces a flip, and the head laws at
concrete draws. -/
theorem C4_witness :
    (channelLoop 0 1 (fun _ => 0) ['0', '1'] 0).2.1 =
      (((['0', '1'] : List Char).zip (channelLoop 0 1 (fun _ => 0) ['0', '1'] 0).1).filter
        (fun p => p.2 ≠ '?' ∧ p.2 ≠ p.1)).length
    ∧ (apply_channel_effects ['0', '1'] 0 1 (fun _ => 0)).2 =
      (((['0', '1'] : List Char).zip
          (apply_channel_effects ['0', '1'] 0 1 (fun _ => 0)).1).filter
        (fun p => p.2 ≠ '?' ∧ p.2 ≠ p.1)).length / (((['0', '1'] : List Char).length : ℚ))
    ∧ ((channelLoop 1 0 (fun _ => 0) ['1'] 0).1.headD ' ' = '?'
      ∧ (channelLoop 1 0 (fun _ => 0) ['1'] 0).2.1 =
        (channelLoop 1 0 (fun _ => 0) [] 1).2.1) :=
  ⟨C4_channel_model.2.2.1 0 1 (fun _ => 0) ['0', '1'] 0 (by decide),
   C4_channel_model.2.2.2.1 0 1 (fun _ => 0) ['0', '1'] (by decide) (by decide),
   (C4_channel_model.2.2.2.2.2.2 1 0 (fun _ => 0) '1' [] 0).1 (by with_unfolding_all decide)⟩

/-- C8, counterexample: the metrics derivation is not a pure function of the
result record — it draws the decoherence rate and detector jitter from the
random source, so two invocations on the same immutable result (here the
classical backend with empty keys) can yield different metric records. -/
theorem C8_counterexample :
    calculate_advanced_metrics "classical" [] [] (fun _ => 0) ≠
      calculate_advanced_metrics "classical" [] [] (fun _ => 1) := by
  with_unfolding_all decide

/-- C8 (amended): the metrics derivation is deterministic only given the
random draws: the privacy-amplification ratio is a pure function of the
result record (identical across draws), and for the classical backend the
fidelity is the constant 1.0 and the gate error rate the constant 0; the
decoherence rate and detector jitter fields are fresh uniform draws on
every invocation. -/
theorem C8_metrics :
    (∀ (bt : String) (a f : List Char) (u v : ℕ → ℚ),
      AdvancedMetrics.privacy_amplification_frac (calculate_advanced_metrics bt a f u) =
        AdvancedMetrics.privacy_amplification_frac (calculate_advanced_metrics bt a f v))
    ∧ (∀ (a f : List Char) (u : ℕ → ℚ),
        AdvancedMetrics.quantum_state_fidelity (calculate_advanced_metrics "classical" a f u) = 1
        ∧ AdvancedMetrics.gate_error_rate_percent
            (calculate_advanced_metrics "classical" a f u) = 0)
    ∧ (∀ (a f : List Char) (u v : ℕ → ℚ), u 3 = v 3 →
        AdvancedMetrics.detector_jitter_ps (calculate_advanced_metrics "classical" a f u) =
          AdvancedMetrics.detector_jitter_ps (calculate_advanced_metrics "classical" a f v)) := by
  refine ⟨?_, ?_, ?_⟩
  · intro bt a f u v
    unfold calculate_advanced_metrics
    dsimp only
  · intro a f u
    have h1 : pyRound 1 4 = 1 := by with_unfolding_all decide
    have h0 : pyRound 0 4 = 0 := by with_unfolding_all decide
    unfold calculate_advanced_metrics
    dsimp only
    rw [if_neg (by decide), if_neg (by decide), if_neg (by decide), if_neg (by decide)]
    exact ⟨h1, h0⟩
  · intro a f u v huv
    unfold calculate_advanced_metrics
    dsimp only
    rw [huv]

/-- C8, witness: draw-dependence instance of the amended statement. -/
theorem C8_witness :
    AdvancedMetrics.detector_jitter_ps
        (calculate_advanced_metrics "classical" ['0'] ['0'] (fun _ => 1 / 2)) =
      AdvancedMetrics.detector_jitter_ps
        (calculate_advanced_metrics "classical" ['0'] ['0'] (fun _ => 1 / 2)) :=
  C8_metrics.2.2 ['0'] ['0'] (fun _ => 1 / 2) (fun _ => 1 / 2) rfl

end BB84
